import Mathlib

/-!
# Pod log streaming handler (`api/v1/handlers/pod_logs_handlers.go`)

A shallow embedding of `PodLogsHandler.GetPodLogs` and `buildLogOptions`:

* `strconv.ParseInt` (Go standard library, base 10, 64 bits) and `buildLogOptions`;
* the synchronous part of `GetPodLogs` that validates the request and opens the
  backend log stream (`GetPodLogs.openStream`);
* the producer goroutine / consumer loop relay of `GetPodLogs` as a labelled
  transition system (`GetPodLogs.step`), one label per atomic Go action.
-/

/-! ## `strconv.ParseInt(s, 10, 64)` -/

namespace strconv

/-- The two error kinds of `strconv.NumError`. -/
inductive NumError where
  | ErrSyntax
  | ErrRange
  deriving DecidableEq, Repr

/-- Largest `uint64`. -/
def maxUint64 : Nat := 2 ^ 64 - 1

/-- `lower(c)` of `strconv`: `c | ('x' - 'X')`. -/
def lower (c : Nat) : Nat := c ||| 0x20

/-- The `switch` of the digit loop of `ParseUint`: the value of a digit or letter,
`none` for the `default` case. A `_` is a digit separator only for base 0, so for
base 10 it falls to `default`. -/
def digitOf (c : Char) : Option Nat :=
  if '0'.toNat ≤ c.toNat ∧ c.toNat ≤ '9'.toNat then some (c.toNat - '0'.toNat)
  else if 'a'.toNat ≤ lower c.toNat ∧ lower c.toNat ≤ 'z'.toNat then
    some (lower c.toNat - 'a'.toNat + 10)
  else none

/-- The digit loop of `ParseUint(s, 10, 64)`: `cutoff = maxUint64/10 + 1`,
`maxVal = 1<<64 - 1`; `uint64` arithmetic is arithmetic modulo `2^64`, so
`n1 := n*10 + d` is `(n * 10 % 2^64 + d) % 2^64`. -/
def parseUintLoop : List Char → Nat → Nat × Option NumError
  | [], n => (n, none)
  | c :: cs, n =>
    match digitOf c with
    | none => (0, some .ErrSyntax)
    | some d =>
      if d ≥ 10 then (0, some .ErrSyntax)
      else if n ≥ maxUint64 / 10 + 1 then (maxUint64, some .ErrRange)
      else if (n * 10 % 2 ^ 64 + d) % 2 ^ 64 < n * 10 % 2 ^ 64
          ∨ (n * 10 % 2 ^ 64 + d) % 2 ^ 64 > maxUint64 then (maxUint64, some .ErrRange)
      else parseUintLoop cs ((n * 10 % 2 ^ 64 + d) % 2 ^ 64)

/-- `ParseUint(s, 10, 64)` on the characters of `s`. -/
def ParseUint (s : List Char) : Nat × Option NumError :=
  if s = [] then (0, some .ErrSyntax) else parseUintLoop s 0

/-- `ParseInt(s, 10, 64)`: the returned value and error, as in Go. -/
def ParseInt (s : String) : Int × Option NumError :=
  match s.data with
  | [] => (0, some .ErrSyntax)
  | c :: cs =>
    let neg := c = '-'
    let rest := if c = '+' then cs else if c = '-' then cs else c :: cs
    let r := ParseUint rest
    if r.2 = some .ErrSyntax then (0, some .ErrSyntax)
    else
      let un := r.1
      let cutoff : Nat := 2 ^ 63
      if ¬ neg ∧ un ≥ cutoff then ((cutoff : Int) - 1, some .ErrRange)
      else if neg ∧ un > cutoff then (-(cutoff : Int), some .ErrRange)
      else if neg then (-(un : Int), none) else ((un : Int), none)

end strconv

/-! ## `buildLogOptions` -/

/-- The fields of `corev1.PodLogOptions` that the handler sets; `TailLines` is a
nullable `*int64`. -/
structure PodLogOptions where
  Container : String
  Timestamps : Bool
  TailLines : Option Int
  deriving DecidableEq, Repr

/-- `buildLogOptions` (lines 154-172). -/
def buildLogOptions (container : String) (timestamps : Bool) (tailLinesStr : String) :
    PodLogOptions :=
  let defaultTailLines : Int := 100
  let tailLines : Option Int :=
    if tailLinesStr ≠ "" then
      match strconv.ParseInt tailLinesStr with
      | (val, none) => if val > 0 then some val else none
      | (_, some _) => none
    else some defaultTailLines
  { Container := container, Timestamps := timestamps, TailLines := tailLines }

/-! ## Request validation and stream opening (lines 36-87) -/

namespace unicode

/-- Go `unicode.IsSpace`: the Latin-1 switch, then the `White_Space` table. -/
def IsSpace (c : Char) : Bool :=
  let r := c.toNat
  if r ≤ 0xFF then
    r = 0x09 || r = 0x0A || r = 0x0B || r = 0x0C || r = 0x0D || r = 0x20 || r = 0x85 || r = 0xA0
  else
    r = 0x1680 || (0x2000 ≤ r && r ≤ 0x200A) || r = 0x2028 || r = 0x2029 || r = 0x202F
      || r = 0x205F || r = 0x3000

end unicode

namespace strings

/-- Go `strings.TrimSpace`: drop leading and trailing white space. -/
def TrimSpace (s : String) : String :=
  ⟨((s.data.dropWhile unicode.IsSpace).reverse.dropWhile unicode.IsSpace).reverse⟩

end strings

/-- A `corev1.Container`, reduced to the field the handler reads. -/
structure Container where
  Name : String
  deriving DecidableEq, Repr

/-- The part of `corev1.PodSpec` the handler reads. -/
structure PodSpec where
  Containers : List Container
  InitContainers : List Container
  deriving DecidableEq, Repr

/-- A fetched `corev1.Pod`. -/
structure Pod where
  Spec : PodSpec
  deriving DecidableEq, Repr

/-- An error returned by the service layer: what `errors.IsNotFound(err)` and
`err.Error()` report about it. -/
structure ApiError where
  IsNotFound : Bool
  Error : String
  deriving DecidableEq, Repr

/-- The backend log stream as the scanner of `initScanner` sees it: the lines
that successive calls of `scanner.Scan()` yield, and whether `scanner.Err()` is
non-nil once `Scan` has returned false (read fault or line over the 1 MiB cap). -/
structure LogStream where
  lines : List String
  readErr : Bool
  deriving DecidableEq, Repr

/-- The raw request parameters read at lines 41-45 (`c.Query` gives `""` for a
missing parameter). -/
structure Request where
  namespaceParam : String
  nameParam : String
  container : String
  timestamps : String
  tailLines : String
  deriving DecidableEq, Repr

/-- The collaborators of the handler that live outside this file: the result of
`k8s.GetClientFromQuery`, the validators of `pkg/utils`, and the two calls of
`service.PodLogsService`. -/
structure Backend where
  clientOk : Bool
  ValidateNamespace : String → Bool
  ValidateResourceName : String → Bool
  Get : String → String → Except ApiError Pod
  GetPodLogs : String → String → PodLogOptions → Except ApiError LogStream

/-- A call made on `service.PodLogsService`. -/
inductive Call where
  | Get (ns name : String)
  | GetPodLogs (ns name : String) (opts : PodLogOptions)
  deriving DecidableEq, Repr

/-- What `respondError(c, code, msg)` sends. -/
structure ErrorResponse where
  code : Nat
  msg : String
  deriving DecidableEq, Repr

/-- Outcome of lines 36-87: the error response sent by the handler (if any), the
service calls made, in order, and the log stream when it was opened. -/
structure Opened where
  response : Option ErrorResponse
  calls : List Call
  stream : Option LogStream
  deriving DecidableEq, Repr

namespace GetPodLogs

/-- The loop of lines 67-73 over `append(pod.Spec.Containers, pod.Spec.InitContainers...)`. -/
def containerFound (pod : Pod) (container : String) : Bool :=
  (pod.Spec.Containers ++ pod.Spec.InitContainers).any (fun cont => cont.Name == container)

/-- The message of line 75, `fmt.Sprintf` with two `%s` verbs. -/
def containerNotFoundMsg (container name : String) : String :=
  "容器 '" ++ container ++ "' 在 Pod '" ++ name ++ "' 中未找到"

/-- Lines 36-87 of `GetPodLogs`: resolve the client, validate, fetch the pod,
check the container, build the options and open the log stream. When the client
cannot be resolved the handler returns at line 38 and sends nothing itself. -/
def openStream (b : Backend) (r : Request) : Opened :=
  if !b.clientOk then ⟨none, [], none⟩
  else
    let ns := strings.TrimSpace r.namespaceParam
    let name := strings.TrimSpace r.nameParam
    let container := r.container
    let timestamps := r.timestamps == "true"
    let tailLinesStr := r.tailLines
    if !b.ValidateNamespace ns || !b.ValidateResourceName name then
      ⟨some ⟨400, "无效的命名空间或 Pod 名称格式"⟩, [], none⟩
    else if container == "" then
      ⟨some ⟨400, "必须提供 'container' 查询参数"⟩, [], none⟩
    else
      match b.Get ns name with
      | .error err =>
        if err.IsNotFound then ⟨some ⟨404, "Pod 不存在"⟩, [.Get ns name], none⟩
        else ⟨some ⟨500, "获取 Pod 信息失败: " ++ err.Error⟩, [.Get ns name], none⟩
      | .ok pod =>
        if !containerFound pod container then
          ⟨some ⟨404, containerNotFoundMsg container name⟩, [.Get ns name], none⟩
        else
          let logOptions := buildLogOptions container timestamps tailLinesStr
          match b.GetPodLogs ns name logOptions with
          | .error err =>
            ⟨some ⟨500, "获取日志失败: " ++ err.Error⟩,
              [.Get ns name, .GetPodLogs ns name logOptions], none⟩
          | .ok logStream =>
            ⟨none, [.Get ns name, .GetPodLogs ns name logOptions], some logStream⟩

/-! ## The relay (lines 88-150) -/

/-- The frame of line 138: `fmt.Fprintf(c.Writer, "data: %s\n\n", line)`. -/
def dataFrame (line : String) : String := "data: " ++ line ++ "\n\n"

/-- The frame of line 134. -/
def endFrame : String := "event: end\ndata: [END]\n\n"

/-- The `return` through which the handler left after the stream was opened. -/
inductive Exit where
  | noFlusher
  | logChanClosed
  | writeError
  | errChan
  | ctxDone
  deriving DecidableEq, Repr

/-- Control point of the request goroutine (the consumer): `start` is line 93,
with `logStream.Close()` deferred; `select` is from the end of a loop round (the
`Flush` of line 142 included) to the resolution of the `select` of line 130;
`write line` is from the receive of `line` to the result of the `Fprintf` of line
138; `returned via` is after the `return` named by `via` and the deferred calls. -/
inductive Consumer where
  | start
  | select
  | write (line : String)
  | returned (via : Exit)
  deriving DecidableEq, Repr

/-- Control point of the goroutine of lines 113-126 (the producer): `idle` before
the `go` statement, `scan` in `scanner.Scan()`, `handoff line` in the `select` of
line 117 with `line = scanner.Text()`, `sendErr` at the send of line 124,
`closeErrChan` and `closeLogChan` before the deferred close of that name
(deferred calls run last-in first-out, `close(errChan)` first), `exited` after. -/
inductive Producer where
  | idle
  | scan
  | handoff (line : String)
  | sendErr
  | closeErrChan
  | closeLogChan
  | exited
  deriving DecidableEq, Repr

/-- State of one streaming session from line 93 on. `written` lists the outputs
of the `Fprintf` calls on `c.Writer` that succeeded, in order; `scanned` counts
the lines `scanner.Scan()` has yielded; `closeCalls` counts `logStream.Close()`;
`requestCancelled` and `writeFailed` record what the environment did. -/
structure State where
  consumer : Consumer
  producer : Producer
  scanned : Nat
  written : List String
  logClosed : Bool
  errClosed : Bool
  ctxDone : Bool
  closeCalls : Nat
  response : Option Nat
  requestCancelled : Bool
  writeFailed : Bool
  deriving DecidableEq, Repr

/-- The state right after the deferred `logStream.Close()` is registered. -/
def init : State :=
  { consumer := .start, producer := .idle, scanned := 0, written := [],
    logClosed := false, errClosed := false, ctxDone := false, closeCalls := 0,
    response := none, requestCancelled := false, writeFailed := false }

/-- One atomic action of the session. -/
inductive Action where
  | noFlusher
  | spawn
  | scan
  | sendLine
  | producerCtxDone
  | sendErr
  | closeErrChan
  | closeLogChan
  | writeOk
  | writeFail
  | recvLogClosed (endWritten : Bool)
  | recvErrClosed
  | consumerCtxDone
  | cancelRequest
  deriving DecidableEq, Repr

/-- A `return` of the consumer loop: the deferred `cancel()` and then the
deferred `logStream.Close()` run. -/
def ret (s : State) (via : Exit) : State :=
  { s with consumer := .returned via, ctxDone := true, closeCalls := s.closeCalls + 1 }

/-- The transition function: `step ls s a` is the state after action `a`, or
`none` when `a` is not enabled in `s`.

* `noFlusher`: the type assertion of line 98 fails; 500, return (only `Close` is deferred yet).
* `spawn`: lines 105-126, the channels and the context are made, the producer starts.
* `scan`: `scanner.Scan()` returns: the next line, or false (then `scanner.Err()` decides).
* `sendLine`: rendezvous on `logChan` (line 120 with line 131).
* `producerCtxDone`: the producer takes `<-ctx.Done()` (line 118) and returns.
* `sendErr`: rendezvous on `errChan` (line 124 with line 143).
* `closeErrChan`, `closeLogChan`: the deferred closes, in that (LIFO) order.
* `writeOk`, `writeFail`: the `Fprintf` of line 138 succeeds (then `Flush`) or fails.
* `recvLogClosed`: the consumer receives `ok == false` from `logChan`, writes the end
  frame (the write result is not checked) and returns.
* `recvErrClosed`: the consumer receives the zero value from the closed `errChan`.
* `consumerCtxDone`: the consumer takes `<-ctx.Done()` (line 146).
* `cancelRequest`: the request context is cancelled. -/
def step (ls : LogStream) (s : State) : Action → Option State
  | .noFlusher =>
    match s.consumer with
    | .start =>
      some { s with consumer := .returned .noFlusher, response := some 500,
                    closeCalls := s.closeCalls + 1 }
    | _ => none
  | .spawn =>
    match s.consumer with
    | .start => some { s with consumer := .select, producer := .scan }
    | _ => none
  | .scan =>
    match s.producer with
    | .scan =>
      match ls.lines[s.scanned]? with
      | some l => some { s with producer := .handoff l, scanned := s.scanned + 1 }
      | none => some { s with producer := if ls.readErr then .sendErr else .closeErrChan }
    | _ => none
  | .sendLine =>
    match s.producer, s.consumer with
    | .handoff l, .select => some { s with producer := .scan, consumer := .write l }
    | _, _ => none
  | .producerCtxDone =>
    match s.producer with
    | .handoff _ => if s.ctxDone then some { s with producer := .closeErrChan } else none
    | _ => none
  | .sendErr =>
    match s.producer, s.consumer with
    | .sendErr, .select => some (ret { s with producer := .closeErrChan } .errChan)
    | _, _ => none
  | .closeErrChan =>
    match s.producer with
    | .closeErrChan => some { s with errClosed := true, producer := .closeLogChan }
    | _ => none
  | .closeLogChan =>
    match s.producer with
    | .closeLogChan => some { s with logClosed := true, producer := .exited }
    | _ => none
  | .writeOk =>
    match s.consumer with
    | .write l => some { s with written := s.written ++ [dataFrame l], consumer := .select }
    | _ => none
  | .writeFail =>
    match s.consumer with
    | .write _ => some (ret { s with writeFailed := true } .writeError)
    | _ => none
  | .recvLogClosed endWritten =>
    match s.consumer with
    | .select =>
      if s.logClosed then
        some (ret { s with written := if endWritten then s.written ++ [endFrame] else s.written,
                           writeFailed := s.writeFailed || !endWritten } .logChanClosed)
      else none
    | _ => none
  | .recvErrClosed =>
    match s.consumer with
    | .select => if s.errClosed then some (ret s .errChan) else none
    | _ => none
  | .consumerCtxDone =>
    match s.consumer with
    | .select => if s.ctxDone then some (ret s .ctxDone) else none
    | _ => none
  | .cancelRequest => some { s with ctxDone := true, requestCancelled := true }

/-- Run a schedule: the actions are taken in order, `none` if one is not enabled. -/
def run (ls : LogStream) (s : State) : List Action → Option State
  | [] => some s
  | a :: as => (step ls s a).bind (fun t => run ls t as)

/-- The states some schedule reaches from `init`. -/
def Reachable (ls : LogStream) (s : State) : Prop :=
  ∃ as : List Action, run ls init as = some s

/-- The bytes the client has been sent: the written frames, concatenated. -/
def wire (s : State) : String := String.join s.written

/-! ## Invariants of the relay -/

/-- Whether the handler has returned. -/
def Consumer.isReturned : Consumer → Bool
  | .returned _ => true
  | _ => false

/-- The close count matches the control point of the handler: no `Close` before
the return, one after. -/
def closeInv (s : State) : Prop :=
  s.closeCalls = if s.consumer.isReturned then 1 else 0

/-- The lines `scanner.Scan()` has yielded so far. -/
def produced (ls : LogStream) (s : State) : List String := ls.lines.take s.scanned

/-- Lines the consumer certainly holds unwritten at a control point. -/
def Consumer.lo : Consumer → Nat
  | .write _ => 1
  | _ => 0

/-- Lines the consumer may have taken without writing them at a control point. -/
def Consumer.hi : Consumer → Nat
  | .write _ => 1
  | .returned _ => 1
  | _ => 0

/-- Lines the producer certainly holds at a control point. -/
def Producer.lo : Producer → Nat
  | .handoff _ => 1
  | _ => 0

/-- Lines the producer may have read without handing them over at a control point. -/
def Producer.hi : Producer → Nat
  | .idle => 0
  | .scan => 0
  | _ => 1

/-- The relay invariant: the written frames are the data frames of the first `k`
lines of the stream, followed by the end frame only if the handler left through
the closed `logChan`; the lines scanned beyond `k` are those held by the two
goroutines; the held lines are the next ones of the stream; and the producer
does not run before the handler has started it. -/
def relayInv (ls : LogStream) (s : State) : Prop :=
  ∃ k : Nat,
    (s.written = (ls.lines.take k).map dataFrame ∨
      (s.consumer = .returned .logChanClosed ∧
        s.written = (ls.lines.take k).map dataFrame ++ [endFrame])) ∧
    k + s.consumer.lo + s.producer.lo ≤ s.scanned ∧
    s.scanned ≤ k + s.consumer.hi + s.producer.hi ∧
    s.scanned ≤ ls.lines.length ∧
    (∀ l, s.consumer = .write l → ls.lines[k]? = some l) ∧
    (∀ l, s.producer = .handoff l → ls.lines[s.scanned - 1]? = some l) ∧
    (s.consumer = .start → s.producer = .idle)

/-- The handler has returned and the producer waits at line 124 to send its error. -/
def stuckAtSendErr (s : State) : Prop :=
  s.consumer.isReturned = true ∧ s.producer = .sendErr

end GetPodLogs

/-! ## The scenario of the specification, used for concrete evaluations -/

namespace Scenario

/-- The backend stream of the scenario: lines `start` and `ready`, then a clean end. -/
def stream : LogStream := ⟨["start", "ready"], false⟩

/-- A backend stream whose first read fails. -/
def failingStream : LogStream := ⟨[], true⟩

/-- The pod of the container check scenario: containers `app` and `sidecar`,
init container `init`. -/
def pod : Pod := ⟨⟨[⟨"app"⟩, ⟨"sidecar"⟩], [⟨"init"⟩]⟩⟩

/-- A backend that resolves the client, accepts every identifier, serves `pod`
and opens `stream`. -/
def backend : Backend :=
  { clientOk := true
    ValidateNamespace := fun _ => true
    ValidateResourceName := fun _ => true
    Get := fun _ _ => .ok pod
    GetPodLogs := fun _ _ _ => .ok stream }

/-- The same backend when `k8s.GetClientFromQuery` does not resolve a client. -/
def backendNoClient : Backend := { backend with clientOk := false }

/-- A request for the logs of pod `web-0` in namespace `default`. -/
def request (container : String) : Request := ⟨"default", "web-0", container, "", ""⟩

open GetPodLogs in
/-- The response writer has no `Flush`. -/
def noFlusherRun : List Action := [.noFlusher]

open GetPodLogs in
/-- Both lines are relayed, the producer closes both channels, the consumer takes
the closed `logChan`. -/
def cleanRun : List Action :=
  [.spawn, .scan, .sendLine, .writeOk, .scan, .sendLine, .writeOk, .scan,
   .closeErrChan, .closeLogChan, .recvLogClosed true]

open GetPodLogs in
/-- Both lines are relayed, the producer closes `errChan`, the consumer takes the
closed `errChan`. -/
def errChanFirstRun : List Action :=
  [.spawn, .scan, .sendLine, .writeOk, .scan, .sendLine, .writeOk, .scan,
   .closeErrChan, .recvErrClosed]

open GetPodLogs in
/-- The write of the first line fails. -/
def writeFailRun : List Action := [.spawn, .scan, .sendLine, .writeFail]

open GetPodLogs in
/-- The read fails and the consumer receives the error. -/
def readErrRun : List Action := [.spawn, .scan, .sendErr]

open GetPodLogs in
/-- The request is cancelled after `start` was written; the consumer takes `ctx.Done()`. -/
def cancelRun : List Action :=
  [.spawn, .scan, .sendLine, .writeOk, .cancelRequest, .consumerCtxDone]

open GetPodLogs in
/-- The consumer has received `start`, the producer has scanned `ready`. -/
def twoInFlightRun : List Action := [.spawn, .scan, .sendLine, .scan]

open GetPodLogs in
/-- The request is cancelled while the consumer writes `start`; the producer
takes `ctx.Done()` and closes both channels; the consumer then takes the closed
`logChan`. -/
def cancelThenEndRun : List Action :=
  [.spawn, .scan, .sendLine, .scan, .cancelRequest, .producerCtxDone,
   .closeErrChan, .closeLogChan, .writeOk, .recvLogClosed true]

open GetPodLogs in
/-- The request is cancelled, the consumer returns, then the read fails. -/
def lateReadErrRun : List Action := [.spawn, .cancelRequest, .consumerCtxDone, .scan]

end Scenario

/-! ## Decimal numerals and `ParseInt` -/

/-- With enough fuel, `Nat.toDigitsCore` prepends the numeral of `n` to the accumulator. -/
theorem toDigitsCore_eq_append (n : Nat) :
    ∀ fuel ds, n < fuel → Nat.toDigitsCore 10 fuel n ds = Nat.toDigits 10 n ++ ds := by
  induction n using Nat.strong_induction_on with
  | _ n ih =>
    intro fuel ds hf
    obtain ⟨f, rfl⟩ : ∃ f, fuel = f + 1 := ⟨fuel - 1, by omega⟩
    unfold Nat.toDigits
    simp only [Nat.toDigitsCore]
    by_cases h0 : n / 10 = 0
    · simp [h0]
    · simp only [h0, if_false]
      have hlt : n / 10 < n := by omega
      rw [ih (n / 10) hlt f _ (by omega), ih (n / 10) hlt n _ hlt]
      simp

/-- The numeral of `n ≥ 10` is the numeral of `n / 10` followed by the last digit. -/
theorem toDigits_step (n : Nat) (h : 10 ≤ n) :
    Nat.toDigits 10 n = Nat.toDigits 10 (n / 10) ++ [Nat.digitChar (n % 10)] := by
  have h0 : n / 10 ≠ 0 := by omega
  have hlt : n / 10 < n := by omega
  conv_lhs => unfold Nat.toDigits
  simp only [Nat.toDigitsCore, h0, if_false]
  exact toDigitsCore_eq_append (n / 10) n _ hlt

/-- The numeral of a one-digit number. -/
theorem toDigits_small (n : Nat) (h : n < 10) : Nat.toDigits 10 n = [Nat.digitChar n] := by
  have h0 : n / 10 = 0 := by omega
  have h1 : n % 10 = n := by omega
  unfold Nat.toDigits
  simp [Nat.toDigitsCore, h0, h1]

namespace strconv

/-- The digit switch on the character of a decimal digit. -/
theorem digitOf_digitChar (d : Nat) (hd : d < 10) : digitOf (Nat.digitChar d) = some d := by
  interval_cases d <;> decide

/-- One round of the digit loop on a decimal digit, away from the overflow checks. -/
theorem parseUintLoop_digit (d m : Nat) (cs : List Char) (hd : d < 10)
    (hm : m * 10 + d < 2 ^ 64) :
    parseUintLoop (Nat.digitChar d :: cs) m = parseUintLoop cs (m * 10 + d) := by
  have h1 : m * 10 % 2 ^ 64 = m * 10 := Nat.mod_eq_of_lt (by omega)
  have h2 : (m * 10 + d) % 2 ^ 64 = m * 10 + d := Nat.mod_eq_of_lt hm
  have h3 : ¬ (m ≥ maxUint64 / 10 + 1) := by
    simp only [maxUint64]; omega
  have h4 : ¬ (m * 10 + d < m * 10 ∨ m * 10 + d > maxUint64) := by
    simp only [maxUint64]; omega
  have h5 : ¬ (d ≥ 10) := by omega
  rw [parseUintLoop, digitOf_digitChar d hd]
  simp only [h1, h2, h3, h4, h5, if_false]

/-- The digit loop continues over an appended suffix. -/
theorem parseUintLoop_append (xs ys : List Char) :
    ∀ acc m, parseUintLoop xs acc = (m, none) →
      parseUintLoop (xs ++ ys) acc = parseUintLoop ys m := by
  induction xs with
  | nil => intro acc m h; simp [parseUintLoop] at h; simp [h]
  | cons c cs ih =>
    intro acc m h
    rw [List.cons_append, parseUintLoop]
    rw [parseUintLoop] at h
    cases hd : digitOf c with
    | none => rw [hd] at h; simp at h
    | some d =>
      rw [hd] at h
      dsimp only at h ⊢
      split_ifs at h ⊢ <;> first | exact ih _ _ h | simp at h

/-- The digit loop reads back the numeral of any `n < 2^64`. -/
theorem parseUintLoop_toDigits (n : Nat) (h : n < 2 ^ 64) :
    parseUintLoop (Nat.toDigits 10 n) 0 = (n, none) := by
  induction n using Nat.strong_induction_on with
  | _ n ih =>
    by_cases h10 : n < 10
    · rw [toDigits_small n h10, parseUintLoop_digit n 0 [] h10 (by omega)]
      simp [parseUintLoop]
    · rw [toDigits_step n (by omega),
        parseUintLoop_append _ _ 0 (n / 10) (ih (n / 10) (by omega) (by omega)),
        parseUintLoop_digit (n % 10) (n / 10) [] (by omega) (by omega)]
      simp only [parseUintLoop]
      congr 1
      omega

/-- A numeral is never empty. -/
theorem toDigits_ne_nil (n : Nat) : Nat.toDigits 10 n ≠ [] := by
  by_cases h10 : n < 10
  · rw [toDigits_small n h10]; simp
  · rw [toDigits_step n (by omega)]; simp

/-- A numeral starts with neither sign. -/
theorem toDigits_head (n : Nat) :
    ∀ c cs, Nat.toDigits 10 n = c :: cs → c ≠ '+' ∧ c ≠ '-' := by
  induction n using Nat.strong_induction_on with
  | _ n ih =>
    intro c cs hc
    by_cases h10 : n < 10
    · rw [toDigits_small n h10] at hc
      simp only [List.cons.injEq] at hc
      obtain ⟨rfl, -⟩ := hc
      interval_cases n <;> decide
    · rw [toDigits_step n (by omega)] at hc
      cases hq : Nat.toDigits 10 (n / 10) with
      | nil => exact absurd hq (toDigits_ne_nil _)
      | cons c2 cs2 =>
        rw [hq] at hc
        simp only [List.cons_append, List.cons.injEq] at hc
        obtain ⟨rfl, -⟩ := hc
        exact ih (n / 10) (by omega) _ _ hq

/-- `ParseInt` reads back the decimal representation of any `n < 2^63`. -/
theorem ParseInt_toString (n : Nat) (h : n < 2 ^ 63) :
    ParseInt (toString n) = ((n : Int), none) := by
  have hdata : (toString n).data = Nat.toDigits 10 n := rfl
  unfold ParseInt
  rw [hdata]
  cases hq : Nat.toDigits 10 n with
  | nil => exact absurd hq (toDigits_ne_nil _)
  | cons c cs =>
    obtain ⟨hp, hm⟩ := toDigits_head n c cs hq
    have hu : ParseUint (c :: cs) = (n, none) := by
      unfold ParseUint
      rw [← hq]
      simp [toDigits_ne_nil, parseUintLoop_toDigits n (by omega)]
    simp only [hp, hm, if_false, hu]
    simp
    omega

end strconv

/-! ## `buildLogOptions` -/

/-- C5. For every container name and timestamps flag, `buildLogOptions` returns
options carrying that name and that flag unchanged (whatever the `tailLines`
string); the tail-line count is 100 when the `tailLines` string is empty, and
exactly `n` when the string is the decimal representation of an integer `n`
with `1 ≤ n ≤ 2^63 - 1`. -/
theorem buildLogOptions_valid (container : String) (timestamps : Bool) :
    (∀ tailLinesStr : String,
      (buildLogOptions container timestamps tailLinesStr).Container = container ∧
      (buildLogOptions container timestamps tailLinesStr).Timestamps = timestamps) ∧
    buildLogOptions container timestamps "" =
        { Container := container, Timestamps := timestamps, TailLines := some 100 } ∧
    ∀ (tailLinesStr : String) (n : Nat), 1 ≤ n → n ≤ 2 ^ 63 - 1 → tailLinesStr = toString n →
      buildLogOptions container timestamps tailLinesStr =
        { Container := container, Timestamps := timestamps, TailLines := some (n : Int) } := by
  refine ⟨fun _ => ⟨rfl, rfl⟩, by simp [buildLogOptions], ?_⟩
  intro s n h1 h2 hs
  subst hs
  have hne : toString n ≠ "" := by
    intro he
    have : (toString n).data = "".data := by rw [he]
    exact strconv.toDigits_ne_nil n this
  have hpos : (0 : Int) < (n : Int) := by omega
  simp [buildLogOptions, hne, strconv.ParseInt_toString n (by omega), hpos]

/-- C5, at the inputs of the specification: `tailLines=25` gives 25. -/
theorem buildLogOptions_valid_witness :
    (1 ≤ 25 ∧ 25 ≤ 2 ^ 63 - 1 ∧ "25" = toString 25) ∧
    buildLogOptions "app" true "25" =
      { Container := "app", Timestamps := true, TailLines := some 25 } :=
  ⟨⟨by decide, by decide, by decide⟩,
    (buildLogOptions_valid "app" true).2.2 "25" 25 (by decide) (by decide) (by decide)⟩

/-- C4, what the code does: for a non-empty `tailLines` string that does not
parse, or parses to a value `≤ 0`, `buildLogOptions` leaves `TailLines` unset
(nil); it does not fall back to 100. -/
theorem buildLogOptions_invalid_unset (container : String) (timestamps : Bool)
    (tailLinesStr : String) (hne : tailLinesStr ≠ "")
    (hbad : (strconv.ParseInt tailLinesStr).2 ≠ none ∨ (strconv.ParseInt tailLinesStr).1 ≤ 0) :
    (buildLogOptions container timestamps tailLinesStr).TailLines = none ∧
    (buildLogOptions container timestamps tailLinesStr).TailLines ≠ some 100 := by
  have key : (buildLogOptions container timestamps tailLinesStr).TailLines = none := by
    simp only [buildLogOptions, hne, ne_eq, not_false_eq_true, if_true]
    rcases hp : strconv.ParseInt tailLinesStr with ⟨v, e⟩
    rw [hp] at hbad
    cases e with
    | some e => rfl
    | none =>
      simp only [ne_eq, not_true_eq_false, false_or] at hbad
      have : ¬ (v > 0) := by omega
      simp [this]
  rw [key]
  simp

/-- C4 at the inputs of the specification: `abc`, `0` and `-5` all leave `TailLines` unset. -/
theorem buildLogOptions_invalid_unset_witness :
    (buildLogOptions "app" false "abc").TailLines = none ∧
    (buildLogOptions "app" false "0").TailLines = none ∧
    (buildLogOptions "app" false "-5").TailLines = none :=
  ⟨(buildLogOptions_invalid_unset "app" false "abc" (by decide) (Or.inl (by decide))).1,
   (buildLogOptions_invalid_unset "app" false "0" (by decide) (Or.inr (by decide))).1,
   (buildLogOptions_invalid_unset "app" false "-5" (by decide) (Or.inr (by decide))).1⟩

/-! ## Request validation and stream opening -/

namespace GetPodLogs

/-- The loop of lines 67-73 finds the container exactly when some container or
init container of the pod has that very name. -/
theorem containerFound_iff (pod : Pod) (container : String) :
    containerFound pod container = true ↔
      ∃ cont, cont ∈ pod.Spec.Containers ++ pod.Spec.InitContainers ∧ cont.Name = container := by
  simp only [containerFound, List.any_eq_true, beq_iff_eq]

/-- The message of line 75 contains the container name and the pod name. -/
theorem containerNotFoundMsg_infix (container name : String) :
    container.data <:+: (containerNotFoundMsg container name).data ∧
    name.data <:+: (containerNotFoundMsg container name).data := by
  constructor
  · refine ⟨"容器 '".data, ("' 在 Pod '" ++ name ++ "' 中未找到").data, ?_⟩
    simp [containerNotFoundMsg, String.data_append, List.append_assoc]
  · refine ⟨("容器 '" ++ container ++ "' 在 Pod '").data, "' 中未找到".data, ?_⟩
    simp [containerNotFoundMsg, String.data_append, List.append_assoc]

/-- C6. For a fetched pod and a non-empty requested container name, the container
check of `GetPodLogs` passes (the handler goes on to open the log stream with the
built options) if and only if the name equals the name of some container or init
container of the pod; when it fails the response is 404 with a message that
contains both the container name and the pod name, the only service call made
is the pod fetch, and no log stream is opened. -/
theorem container_check (b : Backend) (r : Request) (pod : Pod)
    (hclient : b.clientOk = true)
    (hns : b.ValidateNamespace (strings.TrimSpace r.namespaceParam) = true)
    (hname : b.ValidateResourceName (strings.TrimSpace r.nameParam) = true)
    (hcont : r.container ≠ "")
    (hget : b.Get (strings.TrimSpace r.namespaceParam) (strings.TrimSpace r.nameParam) = .ok pod) :
    ((openStream b r).calls =
        [.Get (strings.TrimSpace r.namespaceParam) (strings.TrimSpace r.nameParam),
         .GetPodLogs (strings.TrimSpace r.namespaceParam) (strings.TrimSpace r.nameParam)
           (buildLogOptions r.container (r.timestamps == "true") r.tailLines)]
      ↔ ∃ cont, cont ∈ pod.Spec.Containers ++ pod.Spec.InitContainers ∧
          cont.Name = r.container) ∧
    ((¬ ∃ cont, cont ∈ pod.Spec.Containers ++ pod.Spec.InitContainers ∧
          cont.Name = r.container) →
      ∃ msg, (openStream b r).response = some ⟨404, msg⟩ ∧
        r.container.data <:+: msg.data ∧
        (strings.TrimSpace r.nameParam).data <:+: msg.data ∧
        (openStream b r).calls =
          [.Get (strings.TrimSpace r.namespaceParam) (strings.TrimSpace r.nameParam)] ∧
        (openStream b r).stream = none) := by
  rw [← containerFound_iff]
  have hinf := containerNotFoundMsg_infix r.container (strings.TrimSpace r.nameParam)
  cases hf : containerFound pod r.container with
  | false =>
    refine ⟨?_, fun _ => ⟨containerNotFoundMsg r.container (strings.TrimSpace r.nameParam),
      ?_, hinf.1, hinf.2, ?_, ?_⟩⟩ <;>
      simp [openStream, hclient, hns, hname, hcont, hget, hf]
  | true =>
    refine ⟨?_, fun h => absurd rfl h⟩
    simp only [iff_true]
    simp only [openStream, hclient, hns, hname, hcont, hget, hf]
    cases b.GetPodLogs (strings.TrimSpace r.namespaceParam) (strings.TrimSpace r.nameParam)
      (buildLogOptions r.container (r.timestamps == "true") r.tailLines) <;> simp [hcont]

end GetPodLogs

namespace GetPodLogs

/-- C6 at the pod of the specification: containers `[app, sidecar]`, init
container `[init]`; `sidecar` and `init` pass, `ghost` gives 404 naming `ghost`
and the pod `web-0`, with no log stream opened. -/
theorem container_check_witness :
    (openStream Scenario.backend (Scenario.request "sidecar")).stream = some Scenario.stream ∧
    (openStream Scenario.backend (Scenario.request "init")).stream = some Scenario.stream ∧
    (openStream Scenario.backend (Scenario.request "ghost")).response =
      some ⟨404, "容器 'ghost' 在 Pod 'web-0' 中未找到"⟩ ∧
    (∃ msg, (openStream Scenario.backend (Scenario.request "ghost")).response = some ⟨404, msg⟩ ∧
        "ghost".data <:+: msg.data ∧ (strings.TrimSpace "web-0").data <:+: msg.data ∧
        (openStream Scenario.backend (Scenario.request "ghost")).calls =
          [.Get (strings.TrimSpace "default") (strings.TrimSpace "web-0")] ∧
        (openStream Scenario.backend (Scenario.request "ghost")).stream = none) :=
  ⟨by decide, by decide, by decide,
    (container_check Scenario.backend (Scenario.request "ghost") Scenario.pod rfl rfl rfl
      (by decide) rfl).2 (by decide)⟩

/-- C7, as the code has it. For every request whose `container` query parameter
is missing or empty, `GetPodLogs` makes no service call (neither the pod fetch
nor the log-stream open) and opens no stream; and when the cluster client is
resolved (the guard of lines 36-39 is passed), the handler answers 400. -/
theorem missing_container_bad_request (b : Backend) (r : Request) (hc : r.container = "") :
    (openStream b r).calls = [] ∧ (openStream b r).stream = none ∧
    (b.clientOk = true → ∃ msg, (openStream b r).response = some ⟨400, msg⟩) := by
  unfold openStream
  cases hcl : b.clientOk with
  | false => simp
  | true =>
    cases hv : (!b.ValidateNamespace (strings.TrimSpace r.namespaceParam)
        || !b.ValidateResourceName (strings.TrimSpace r.nameParam)) <;>
      simp [hv, hc]

/-- C7 at a request without `container`: 400 and no service call. -/
theorem missing_container_bad_request_witness :
    (Scenario.request "").container = "" ∧
    (openStream Scenario.backend (Scenario.request "")).calls = [] ∧
    (openStream Scenario.backend (Scenario.request "")).stream = none ∧
    (Scenario.backend.clientOk = true →
      ∃ msg, (openStream Scenario.backend (Scenario.request "")).response = some ⟨400, msg⟩) :=
  ⟨rfl, missing_container_bad_request Scenario.backend (Scenario.request "") rfl⟩

/-- C7 as stated fails: when `k8s.GetClientFromQuery` does not resolve a client
the handler returns at line 38, before its own checks; for a request without
`container` it then makes no service call, but it sends no 400 either. -/
theorem missing_container_not_always_400 :
    (Scenario.request "").container = "" ∧
    (openStream Scenario.backendNoClient (Scenario.request "")).response = none ∧
    (openStream Scenario.backendNoClient (Scenario.request "")).calls = [] ∧
    ¬ ∀ (b : Backend) (r : Request), r.container = "" →
      (∃ msg, (openStream b r).response = some ⟨400, msg⟩) ∧ (openStream b r).calls = [] := by
  refine ⟨rfl, rfl, rfl, fun H => ?_⟩
  obtain ⟨⟨msg, h⟩, -⟩ := H Scenario.backendNoClient (Scenario.request "") rfl
  have hnone : (openStream Scenario.backendNoClient (Scenario.request "")).response = none := rfl
  rw [hnone] at h
  cases h

end GetPodLogs

namespace GetPodLogs

end GetPodLogs

/-! ## The relay -/

namespace GetPodLogs

/-- Running a concatenated schedule is running its parts in turn. -/
theorem run_append (ls : LogStream) (as bs : List Action) :
    ∀ s, run ls s (as ++ bs) = (run ls s as).bind (fun t => run ls t bs) := by
  induction as with
  | nil => intro s; simp [run]
  | cons a as ih =>
    intro s
    simp only [List.cons_append, run]
    cases step ls s a with
    | none => simp
    | some u => simp [ih u]

/-- A step from a reachable state leads to a reachable state. -/
theorem Reachable.step {ls : LogStream} {s t : State} {a : Action}
    (hs : Reachable ls s) (h : GetPodLogs.step ls s a = some t) : Reachable ls t := by
  obtain ⟨as, has⟩ := hs
  refine ⟨as ++ [a], ?_⟩
  rw [run_append, has]
  simp [run, h]

/-- A property that every step preserves holds along every schedule. -/
theorem run_preserves (ls : LogStream) (P : State → Prop)
    (hstep : ∀ s a t, P s → step ls s a = some t → P t) :
    ∀ (as : List Action) (s t : State), P s → run ls s as = some t → P t := by
  intro as
  induction as with
  | nil => intro s t hs h; simp [run] at h; exact h ▸ hs
  | cons a as ih =>
    intro s t hs h
    simp only [run] at h
    cases hu : step ls s a with
    | none => rw [hu] at h; simp at h
    | some u =>
      rw [hu] at h
      exact ih u t (hstep s a u hs hu) h

/-- The close count is zero until the handler returns and one from then on. -/
theorem closeInv_step (ls : LogStream) (s : State) (a : Action) (t : State)
    (hs : closeInv s) (h : step ls s a = some t) : closeInv t := by
  unfold closeInv at hs ⊢
  cases a <;> simp only [step] at h <;> (repeat' split at h) <;>
    first
    | (simp at h; done)
    | (simp only [Option.some.injEq, ret] at h
       subst h
       simp_all [Consumer.isReturned])

end GetPodLogs

namespace GetPodLogs

/-- Every step preserves the relay invariant. -/
theorem relayInv_step (ls : LogStream) (s : State) (a : Action) (t : State)
    (hs : relayInv ls s) (h : step ls s a = some t) : relayInv ls t := by
  obtain ⟨k, hw, hlo, hhi, hlen, hc, hp, hst⟩ := hs
  cases a with
  | spawn =>
    simp only [step] at h
    split at h
    · rename_i hcons
      simp only [Option.some.injEq] at h
      subst h
      have hidle := hst hcons
      simp only [hcons, hidle, Consumer.lo, Consumer.hi, Producer.lo, Producer.hi] at hlo hhi
      refine ⟨k, ?_, ?_, ?_, hlen, ?_, ?_, ?_⟩
      · rcases hw with hw | ⟨hr, -⟩
        · exact Or.inl hw
        · rw [hcons] at hr; cases hr
      · simp only [Consumer.lo, Producer.lo]; omega
      · simp only [Consumer.hi, Producer.hi]; omega
      · intro l hl; cases hl
      · intro l hl; cases hl
      · intro hl; cases hl
    · simp at h
  | scan =>
    simp only [step] at h
    split at h
    · rename_i hprod
      simp only [hprod, Producer.lo, Producer.hi] at hlo hhi
      split at h
      · rename_i l hl
        simp only [Option.some.injEq] at h
        subst h
        have hlt : s.scanned < ls.lines.length := by
          by_contra hge
          rw [List.getElem?_eq_none (by omega)] at hl
          cases hl
        refine ⟨k, hw, ?_, ?_, ?_, hc, ?_, ?_⟩
        · simp only [Producer.lo]; omega
        · simp only [Producer.hi]; omega
        · simp only; omega
        · intro l2 hl2
          simp only [Producer.handoff.injEq] at hl2
          subst hl2
          simpa using hl
        · intro hcons
          have := hst hcons
          rw [hprod] at this
          cases this
      · simp only [Option.some.injEq] at h
        subst h
        refine ⟨k, hw, ?_, ?_, hlen, hc, ?_, ?_⟩
        · simp only; split <;> simp only [Producer.lo] <;> omega
        · simp only; split <;> simp only [Producer.hi] <;> omega
        · intro l2 hl2
          simp only at hl2
          split at hl2 <;> cases hl2
        · intro hcons
          have := hst hcons
          rw [hprod] at this
          cases this
    · simp at h
  | sendLine =>
    simp only [step] at h
    split at h
    · rename_i l hprod hcons
      simp only [Option.some.injEq] at h
      subst h
      simp only [hprod, hcons, Consumer.lo, Consumer.hi, Producer.lo, Producer.hi] at hlo hhi
      have hk : s.scanned - 1 = k := by omega
      have hl := hp l hprod
      rw [hk] at hl
      refine ⟨k, ?_, ?_, ?_, hlen, ?_, ?_, ?_⟩
      · rcases hw with hw | ⟨hr, -⟩
        · exact Or.inl hw
        · rw [hcons] at hr; cases hr
      · simp only [Consumer.lo, Producer.lo]; omega
      · simp only [Consumer.hi, Producer.hi]; omega
      · intro l2 hl2
        simp only [Consumer.write.injEq] at hl2
        subst hl2
        exact hl
      · intro l2 hl2; cases hl2
      · intro hl2; cases hl2
    · simp at h
  | writeOk =>
    simp only [step] at h
    split at h
    · rename_i l hcons
      simp only [Option.some.injEq] at h
      subst h
      simp only [hcons, Consumer.lo, Consumer.hi] at hlo hhi
      have hl := hc l hcons
      refine ⟨k + 1, Or.inl ?_, ?_, ?_, hlen, ?_, hp, ?_⟩
      · rcases hw with hw | ⟨hr, -⟩
        · simp only [hw, List.take_succ, hl, Option.toList, List.map_append, List.map_cons,
            List.map_nil]
        · rw [hcons] at hr; cases hr
      · simp only [Consumer.lo]; omega
      · simp only [Consumer.hi]; omega
      · intro l2 hl2; cases hl2
      · intro hl2; cases hl2
    · simp at h
  | cancelRequest =>
    simp only [step, Option.some.injEq] at h
    subst h
    exact ⟨k, hw, hlo, hhi, hlen, hc, hp, hst⟩
  | _ =>
    simp only [step] at h
    (repeat' split at h) <;>
    first
    | (simp at h; done)
    | (simp only [Option.some.injEq, ret] at h
       subst h
       refine ⟨k, ?_, ?_, ?_, ?_, ?_, ?_, ?_⟩ <;>
         simp_all [Consumer.lo, Consumer.hi, Producer.lo, Producer.hi] <;> omega)

end GetPodLogs

namespace GetPodLogs

/-- The relay invariant holds in every reachable state. -/
theorem relayInv_of_reachable (ls : LogStream) (s : State) (h : Reachable ls s) :
    relayInv ls s := by
  obtain ⟨as, has⟩ := h
  refine run_preserves ls (relayInv ls) (relayInv_step ls) as init s ?_ has
  refine ⟨0, Or.inl ?_, ?_, ?_, ?_, ?_, ?_, ?_⟩ <;>
    simp [init, Consumer.lo, Consumer.hi, Producer.lo, Producer.hi]

/-- Once the handler has returned, no step writes to the client or revives it. -/
theorem returned_step (ls : LogStream) (c : Consumer) (w : List String) (s : State) (a : Action)
    (t : State) (hs : c.isReturned = true ∧ s.consumer = c ∧ s.written = w)
    (h : step ls s a = some t) : c.isReturned = true ∧ t.consumer = c ∧ t.written = w := by
  obtain ⟨hr, hc, hw⟩ := hs
  subst hc hw
  cases a <;> simp only [step] at h <;> (repeat' split at h) <;>
    first
    | (simp at h; done)
    | (simp only [Option.some.injEq, ret] at h
       subst h
       simp_all [Consumer.isReturned])

/-- Once the handler has returned and the producer waits to send its error, no
step is enabled that moves the producer. -/
theorem stuckAtSendErr_step (ls : LogStream) (s : State) (a : Action) (t : State)
    (hs : stuckAtSendErr s) (h : step ls s a = some t) : stuckAtSendErr t := by
  obtain ⟨hr, hp⟩ := hs
  unfold stuckAtSendErr
  cases a <;> simp only [step] at h <;> (repeat' split at h) <;>
    first
    | (simp at h; done)
    | (simp only [Option.some.injEq, ret] at h
       subst h
       simp_all [Consumer.isReturned])

/-- A data frame is never the end frame. -/
theorem dataFrame_ne_endFrame (l : String) : dataFrame l ≠ endFrame := by
  intro h
  have h2 := congrArg String.data h
  simp [dataFrame, endFrame] at h2

/-- The end frame is written on one return only: the one that follows the
receive from the closed `logChan`. -/
theorem endFrame_only_after_logChan_closed (ls : LogStream) (s : State) (h : Reachable ls s)
    (he : endFrame ∈ s.written) : s.consumer = .returned .logChanClosed := by
  obtain ⟨k, hw, -⟩ := relayInv_of_reachable ls s h
  rcases hw with hw | ⟨hr, -⟩
  · rw [hw, List.mem_map] at he
    obtain ⟨l, -, hl⟩ := he
    exact absurd hl (dataFrame_ne_endFrame l)
  · exact hr

/-- C3. In every session in which the backend stream was opened, `Close` has been
called on the stream exactly once whenever the handler has returned, whichever
return it took (no flusher, closed line channel, write error, error channel,
cancellation), and not at all before: it is never called twice. -/
theorem close_exactly_once (ls : LogStream) (s : State) (h : Reachable ls s) :
    s.closeCalls ≤ 1 ∧
    (∀ via, s.consumer = .returned via → s.closeCalls = 1) ∧
    (s.consumer.isReturned = false → s.closeCalls = 0) := by
  obtain ⟨as, has⟩ := h
  have hinv : closeInv s :=
    run_preserves ls closeInv (closeInv_step ls) as init s (by simp [closeInv, init, Consumer.isReturned]) has
  unfold closeInv at hinv
  refine ⟨?_, ?_, ?_⟩
  · rw [hinv]; split <;> omega
  · intro via hv; rw [hinv, hv]; rfl
  · intro hr; rw [hinv, hr]; rfl

/-- C3 on each of the five returns of the handler: one `Close` in each. -/
theorem close_exactly_once_witness :
    (∃ s, run Scenario.stream init Scenario.noFlusherRun = some s ∧
      s.consumer = .returned .noFlusher ∧ s.closeCalls = 1) ∧
    (∃ s, run Scenario.stream init Scenario.cleanRun = some s ∧
      s.consumer = .returned .logChanClosed ∧ s.closeCalls = 1) ∧
    (∃ s, run Scenario.stream init Scenario.writeFailRun = some s ∧
      s.consumer = .returned .writeError ∧ s.closeCalls = 1) ∧
    (∃ s, run Scenario.failingStream init Scenario.readErrRun = some s ∧
      s.consumer = .returned .errChan ∧ s.closeCalls = 1) ∧
    (∃ s, run Scenario.stream init Scenario.cancelRun = some s ∧
      s.consumer = .returned .ctxDone ∧ s.closeCalls = 1) :=
  ⟨⟨_, rfl, rfl,
      (close_exactly_once Scenario.stream _ ⟨Scenario.noFlusherRun, rfl⟩).2.1 _ rfl⟩,
   ⟨_, rfl, rfl,
      (close_exactly_once Scenario.stream _ ⟨Scenario.cleanRun, rfl⟩).2.1 _ rfl⟩,
   ⟨_, rfl, rfl,
      (close_exactly_once Scenario.stream _ ⟨Scenario.writeFailRun, rfl⟩).2.1 _ rfl⟩,
   ⟨_, rfl, rfl,
      (close_exactly_once Scenario.failingStream _ ⟨Scenario.readErrRun, rfl⟩).2.1 _ rfl⟩,
   ⟨_, rfl, rfl,
      (close_exactly_once Scenario.stream _ ⟨Scenario.cancelRun, rfl⟩).2.1 _ rfl⟩⟩

/-- C10, as the code has it. In every reachable state of the relay, whatever ends
the session, the frames written so far are the data frames `data: l\n\n` of the
first `k` lines the scanner has produced, in order, none duplicated, skipped or
merged (followed, at most, by the end frame), and the scanner has produced at
most two lines more than have been written: one the consumer has received and
not yet written, one the producer holds at the hand-off. -/
theorem frames_follow_scanned_lines (ls : LogStream) (s : State) (h : Reachable ls s) :
    ∃ k : Nat, k ≤ s.scanned ∧ s.scanned ≤ k + 2 ∧ (produced ls s).length = s.scanned ∧
      (s.written = ((produced ls s).take k).map dataFrame ∨
        s.written = ((produced ls s).take k).map dataFrame ++ [endFrame]) := by
  obtain ⟨k, hw, hlo, hhi, hlen, -, -, -⟩ := relayInv_of_reachable ls s h
  have hk : k ≤ s.scanned := by omega
  have hc : s.consumer.hi ≤ 1 := by cases s.consumer <;> simp [Consumer.hi]
  have hp : s.producer.hi ≤ 1 := by cases s.producer <;> simp [Producer.hi]
  have htake : (produced ls s).take k = ls.lines.take k := by
    simp only [produced, List.take_take, Nat.min_eq_left hk]
  refine ⟨k, hk, by omega, ?_, ?_⟩
  · simp only [produced, List.length_take]; omega
  · rw [htake]
    rcases hw with hw | ⟨-, hw⟩
    · exact Or.inl hw
    · exact Or.inr hw

/-- C10 in the scenario, at the point where the consumer is writing `start` and
the producer already holds `ready`. -/
theorem frames_follow_scanned_lines_witness :
    ∃ s, run Scenario.stream init Scenario.twoInFlightRun = some s ∧
      ∃ k : Nat, k ≤ s.scanned ∧ s.scanned ≤ k + 2 ∧
        (produced Scenario.stream s).length = s.scanned ∧
        (s.written = ((produced Scenario.stream s).take k).map dataFrame ∨
          s.written = ((produced Scenario.stream s).take k).map dataFrame ++ [endFrame]) :=
  ⟨_, rfl, frames_follow_scanned_lines Scenario.stream _ ⟨Scenario.twoInFlightRun, rfl⟩⟩

/-- C10 as stated fails: in the scenario, after the consumer has received `start`
and before it has written it, the producer has already scanned `ready`; two lines
are scanned and none is written, so no bound of one line holds. -/
theorem one_line_bound_fails :
    ¬ ∀ (ls : LogStream) (s : State), Reachable ls s →
      ∃ k : Nat, s.scanned ≤ k + 1 ∧
        (s.written = ((produced ls s).take k).map dataFrame ∨
          s.written = ((produced ls s).take k).map dataFrame ++ [endFrame]) := by
  intro H
  obtain ⟨k, hk, hw⟩ := H Scenario.stream
    { init with consumer := .write "start", producer := .handoff "ready", scanned := 2 }
    ⟨Scenario.twoInFlightRun, rfl⟩
  rcases k with _ | k
  · simp at hk
  · simp [produced, Scenario.stream, init] at hw

/-- C1, what the code does in the scenario: the stream ends cleanly, nothing is
cancelled and no write fails, yet when the consumer's `select` takes the
`errChan` case, ready because the producer's deferred `close(errChan)` has run,
the handler returns having written the two data frames and no end frame; no
later step writes anything. -/
theorem clean_end_without_end_frame :
    ∃ s, run Scenario.stream init Scenario.errChanFirstRun = some s ∧
      s.requestCancelled = false ∧ s.writeFailed = false ∧
      s.consumer = .returned .errChan ∧
      s.written = [dataFrame "start", dataFrame "ready"] ∧
      wire s = "data: start\n\ndata: ready\n\n" ∧
      ∀ as t, run Scenario.stream s as = some t →
        t.written = [dataFrame "start", dataFrame "ready"] :=
  ⟨_, rfl, rfl, rfl, rfl, rfl, by decide, fun as t h =>
    (run_preserves Scenario.stream _ (returned_step Scenario.stream (.returned .errChan)
      [dataFrame "start", dataFrame "ready"]) as _ t ⟨rfl, rfl, rfl⟩ h).2.2⟩

/-- C2, what the code does in the scenario: the request is cancelled while the
consumer writes `start`; the producer takes `ctx.Done()`, drops `ready` and its
deferred closes run; the consumer's `select` then takes the closed `logChan` and
writes the end frame, in a session that cancellation ended. -/
theorem cancelled_session_writes_end_frame :
    ∃ s, run Scenario.stream init Scenario.cancelThenEndRun = some s ∧
      s.requestCancelled = true ∧ s.writeFailed = false ∧
      s.consumer = .returned .logChanClosed ∧
      s.written = [dataFrame "start", endFrame] ∧
      wire s = "data: start\n\nevent: end\ndata: [END]\n\n" :=
  ⟨_, rfl, rfl, rfl, rfl, rfl, by decide⟩

/-- C9, what the code does when the read fails after the handler has gone: the
request is cancelled, the consumer returns through `ctx.Done()` (its deferred
`cancel()` and `Close()` run), the scanner then reports an error and the producer
blocks at `errChan <- err`; from that state no schedule moves the producer,
although the context is cancelled. -/
theorem producer_blocked_forever :
    ∃ s, run Scenario.failingStream init Scenario.lateReadErrRun = some s ∧
      s.consumer = .returned .ctxDone ∧ s.ctxDone = true ∧ s.producer = .sendErr ∧
      ∀ as t, run Scenario.failingStream s as = some t → t.producer = .sendErr := by
  refine ⟨_, rfl, rfl, rfl, rfl, fun as t h => ?_⟩
  refine (run_preserves Scenario.failingStream stuckAtSendErr
    (stuckAtSendErr_step Scenario.failingStream) as _ t ?_ h).2
  exact ⟨rfl, rfl⟩

end GetPodLogs
